import Mathlib

/-!
Shallow embedding of `ping_on_failure.py` from tlc-pack/ci-monitoring.

The script fetches recent commits of the default branch of a repository with
their CI check statuses (paginated), normalizes the two upstream status
variants into one `{name, status, url}` shape (`check_commit`), diffs the
new snapshot against the persisted one (`message_diff`), sends one chat
notification per newly failing check, and overwrites the snapshot file
when the snapshots differ.
-/

/-- A normalized CI check status: `{name, status, url}` as built by
`check_commit` in `ping_on_failure.py`. -/
structure CheckStatus where
  name : String
  status : String
  url : String
deriving DecidableEq, Repr

/-- A normalized commit record: the dict returned by `check_commit`
(`oid`, `statuses`, `messageHeadline`). A snapshot is a list of these. -/
structure CommitRecord where
  oid : String
  statuses : List CheckStatus
  messageHeadline : String
deriving DecidableEq, Repr

/-- One raw status node from the GraphQL response: either a legacy
`StatusContext` (has a `context` key) or a GitHub Actions `CheckRun`
(dispatched in the code by `"context" in status`). -/
inductive RawStatus where
  | statusContext (context state targetUrl : String)
  | checkRun (conclusion name detailsUrl workflow : String)
deriving DecidableEq, Repr

/-- One raw commit node from the GraphQL response: `oid`,
`messageHeadline`, and `statusCheckRollup.contexts.nodes`. -/
structure RawCommit where
  oid : String
  messageHeadline : String
  nodes : List RawStatus
deriving DecidableEq, Repr

/-- Embedding of `check_commit` (lines 90-125): unify the two status representations,
appending one unified entry per raw node, in order. -/
def check_commit (commit : RawCommit) : CommitRecord :=
  let unified_statuses : List CheckStatus :=
    commit.nodes.foldl
      (fun acc status =>
        match status with
        | .statusContext context state targetUrl =>
            acc ++ [{ name := context, status := state, url := targetUrl }]
        | .checkRun conclusion name detailsUrl workflow =>
            acc ++ [{ name := workflow ++ " / " ++ name, status := conclusion,
                      url := detailsUrl }])
      []
  { oid := commit.oid, statuses := unified_statuses,
    messageHeadline := commit.messageHeadline }

/-- Does the character list start with `needle`?  (Used to embed the Python
substring test.) -/
def leadsWith : List Char → List Char → Bool
  | [], _ => true
  | _ :: _, [] => false
  | c :: cs, d :: ds => c == d && leadsWith cs ds

/-- Is `needle` a contiguous sublist of `hay`?  Embeds the Python
test `needle in hay` on strings. -/
def hasSub (needle : List Char) : List Char → Bool
  | [] => needle.isEmpty
  | c :: cs => leadsWith needle (c :: cs) || hasSub needle cs

/-- The Python method `s.lower()` restricted to what the script needs:
character-wise lowercasing. -/
def lowerData (s : String) : List Char :=
  s.data.map Char.toLower

/-- The failure-detection predicate of `message_diff` (line 148):
`"error" in x["status"].lower() or "fail" in x["status"].lower()`. -/
def isFailing (status : String) : Bool :=
  hasSub "error".data (lowerData status) || hasSub "fail".data (lowerData status)

/-- Embedding of `find_old` (lines 129-133): linear scan of the old snapshot for the
first commit with the given oid. -/
def find_old (old : List CommitRecord) (oid : String) : Option CommitRecord :=
  match old with
  | [] => none
  | c :: rest => if c.oid = oid then some c else find_old rest oid

/-- One notification event, bound to (commit oid, commit message headline,
check name, check url) — the data the `discord(...)` body at lines 152-163
is built from. -/
structure Notified where
  oid : String
  headline : String
  name : String
  url : String
deriving DecidableEq, Repr

/-- The notification event built for check `m` of commit `commit`
(lines 152-163). -/
def mkNotified (commit : CommitRecord) (m : CheckStatus) : Notified :=
  { oid := commit.oid, headline := commit.messageHeadline,
    name := m.name, url := m.url }

/-- The per-commit loop body of `message_diff` (lines 136-163):
select the `to_message` checks, keep the failing ones, and emit one
notification per check, iterating in reversed order. -/
def commitMessages (old : List CommitRecord) (commit : CommitRecord) :
    List Notified :=
  let to_message : List CheckStatus :=
    match find_old old commit.oid with
    | some old_commit =>
        let old_names := old_commit.statuses.map (fun x => x.name)
        commit.statuses.filter (fun x => !(old_names.contains x.name))
    | none => commit.statuses
  let to_message := to_message.filter (fun x => isFailing x.status)
  to_message.reverse.foldl (fun acc m => acc ++ [mkNotified commit m]) []

/-- Embedding of `message_diff` (lines 128-163): run the per-commit loop over every
commit of the new snapshot, in order, accumulating the notifications
sent. -/
def message_diff (old new : List CommitRecord) : List Notified :=
  new.foldl (fun acc commit => acc ++ commitMessages old commit) []

/-- The tail of `__main__` (lines 229-233): if the snapshots differ,
run the diff (sending notifications) and overwrite `statuses.json`
with the new snapshot; otherwise do neither.  The result is the pair
(notifications sent, `some` written contents or `none` for no write). -/
def run_update (old_all_data all_data : List CommitRecord) :
    List Notified × Option (List CommitRecord) :=
  if old_all_data ≠ all_data then
    (message_diff old_all_data all_data, some all_data)
  else
    ([], none)

/-- Constant `MAX_COMMITS_TO_CHECK` (line 195). -/
def MAX_COMMITS_TO_CHECK : Nat := 10

/-- One page of the paginated GraphQL history: the `nodes` (raw commits)
and the `edges` (cursors) of the response. -/
structure Page where
  nodes : List RawCommit
  edges : List String
deriving DecidableEq, Repr

/-- Lines 212-213: append `check_commit` of every commit of the page to
`all_data`, in order. -/
def append_page (acc : List CommitRecord) (page : Page) :
    List CommitRecord :=
  page.nodes.foldl (fun a commit => a ++ [check_commit commit]) acc

/-- The pagination loop of `__main__` (lines 206-226), given the page
just fetched, the remaining upstream pages, the count `i` and the
accumulator `all_data`.  Returns (`all_data`, number of pages fetched
from this state on, the current page included).  Querying past the last
upstream page returns an empty history (no nodes, no edges), which the
loop then breaks on; the `rest = []` branch accounts for that one extra
empty fetch. -/
def fetch_all : Nat → Page → List Page → List CommitRecord →
    List CommitRecord × Nat
  | i, page, rest, acc =>
    if page.edges.length = 0 then
      (append_page acc page, 1)
    else if i + page.nodes.length < MAX_COMMITS_TO_CHECK then
      match rest with
      | [] => (append_page acc page, 2)
      | p :: ps =>
        let r := fetch_all (i + page.nodes.length) p ps (append_page acc page)
        (r.1, r.2 + 1)
    else
      (append_page acc page, 1)

/-- The whole fetch (lines 189-226): the initial query returns the first
upstream page (an empty history when the upstream has none), then the
loop runs with `i = 0` and an empty accumulator. -/
def run_fetch (pages : List Page) : List CommitRecord × Nat :=
  match pages with
  | [] => fetch_all 0 { nodes := [], edges := [] } [] []
  | p :: ps => fetch_all 0 p ps []

/-- The `to_message` list before the failure filter (lines 136-143). -/
def to_message_of (old : List CommitRecord) (commit : CommitRecord) :
    List CheckStatus :=
  match find_old old commit.oid with
  | some old_commit =>
      let old_names := old_commit.statuses.map (fun x => x.name)
      commit.statuses.filter (fun x => !(old_names.contains x.name))
  | none => commit.statuses

/-- The `to_message` list after the failure filter (lines 145-149): the
checks of `commit` that will actually be notified. -/
def notifyList (old : List CommitRecord) (commit : CommitRecord) :
    List CheckStatus :=
  (to_message_of old commit).filter (fun x => isFailing x.status)

/-! ### Helper lemmas -/

theorem foldl_push_eq {α β : Type} (f : α → β) (l : List α) (acc : List β) :
    l.foldl (fun a x => a ++ [f x]) acc = acc ++ l.map f := by
  induction l generalizing acc with
  | nil => simp
  | cons x xs ih => simp [ih]

theorem foldl_acc_append {α β : Type} (g : α → List β) (l : List α)
    (acc : List β) :
    l.foldl (fun a x => a ++ g x) acc = acc ++ (l.map g).flatten := by
  induction l generalizing acc with
  | nil => simp
  | cons x xs ih => simp [ih]

theorem append_page_eq (acc : List CommitRecord) (page : Page) :
    append_page acc page = acc ++ page.nodes.map check_commit := by
  unfold append_page
  rw [foldl_push_eq]

theorem commitMessages_eq (old : List CommitRecord) (commit : CommitRecord) :
    commitMessages old commit =
      (notifyList old commit).reverse.map (mkNotified commit) := by
  unfold commitMessages notifyList to_message_of
  cases find_old old commit.oid <;>
    simp only [foldl_push_eq, List.nil_append]

theorem message_diff_eq_flatten (old new : List CommitRecord) :
    message_diff old new = (new.map (commitMessages old)).flatten := by
  unfold message_diff
  rw [foldl_acc_append]
  simp

/-! ### C1 -/

/-- C1: when the old and the new snapshot are structurally equal the run
sends no notification and performs no write of the snapshot store (the
result of `run_update` is the empty notification list and `none`, i.e.
no file write; the per-commit diff branch is not taken). -/
theorem equal_snapshots_no_effects (old new : List CommitRecord)
    (h : old = new) : run_update old new = ([], none) := by
  subst h
  simp [run_update]

/-- Witness for C1 at a concrete snapshot pair. -/
theorem equal_snapshots_no_effects_witness :
    run_update [] [] = ([], none) :=
  equal_snapshots_no_effects [] [] rfl

/-! ### C2 -/

/-- C2: for a new-snapshot commit whose oid is absent from the old
snapshot, the emitted notifications are exactly one per check whose
status token satisfies the failure predicate — the reversed failing
sublist of the status sequence of the commit, each entry mapped to its
notification — and hence zero for every check with any other status
token. -/
theorem new_commit_notifies_failing_checks (old : List CommitRecord)
    (commit : CommitRecord) (h : find_old old commit.oid = none) :
    commitMessages old commit =
      ((commit.statuses.filter (fun x => isFailing x.status)).reverse).map
        (mkNotified commit) := by
  rw [commitMessages_eq]
  unfold notifyList to_message_of
  rw [h]

/-- The scenario commit of the spec: oid "a1", headline "fix bug", one check
"CI / build" with status "FAILURE". -/
def demoCommit : CommitRecord :=
  { oid := "a1"
    statuses := [{ name := "CI / build", status := "FAILURE", url := "http://x/1" }]
    messageHeadline := "fix bug" }

/-- Witness for C2 on the scenario of the spec (old = [], new commit `a1`):
the theorem applies, and the notification list it describes is the
single notification for `CI / build` on commit `a1`. -/
theorem new_commit_notifies_failing_checks_witness :
    commitMessages [] demoCommit =
      ((demoCommit.statuses.filter (fun x => isFailing x.status)).reverse).map
        (mkNotified demoCommit) ∧
    commitMessages [] demoCommit =
      [{ oid := "a1", headline := "fix bug", name := "CI / build",
         url := "http://x/1" }] :=
  ⟨new_commit_notifies_failing_checks [] demoCommit rfl, by decide⟩

/-! ### C3 -/

/-- C3: for a commit present (by oid) in both snapshots, a check of the
new commit whose name occurs among the check names of the old commit yields
no notification, whatever its status token is: the per-commit
notification list contains zero events bearing that name. -/
theorem seen_name_never_notified (old : List CommitRecord)
    (commit old_commit : CommitRecord) (s : CheckStatus)
    (hfind : find_old old commit.oid = some old_commit)
    (hs : s ∈ commit.statuses)
    (hname : s.name ∈ old_commit.statuses.map (fun x => x.name)) :
    (commitMessages old commit).countP (fun e => e.name == s.name) = 0 := by
  rw [commitMessages_eq, List.countP_map, List.countP_reverse,
    List.countP_eq_zero]
  intro x hx
  unfold notifyList to_message_of at hx
  rw [hfind] at hx
  simp only [List.mem_filter, List.contains, List.elem_eq_mem,
    Bool.not_eq_true', decide_eq_false_iff_not] at hx
  simp only [Function.comp_apply, mkNotified, beq_iff_eq]
  intro heq
  exact hx.1.2 (by rw [heq]; exact hname)

/-- Old check of the second scenario of the spec: "CI / build" failing. -/
def oldCheck1 : CheckStatus :=
  { name := "CI / build", status := "FAILURE", url := "u" }

/-- New check of the second scenario of the spec: same name, now succeeding. -/
def newCheck1 : CheckStatus :=
  { name := "CI / build", status := "SUCCESS", url := "u" }

/-- Old commit `a1` carrying `oldCheck1`. -/
def oldCommit1 : CommitRecord :=
  { oid := "a1", statuses := [oldCheck1], messageHeadline := "m" }

/-- New commit `a1` carrying `newCheck1`. -/
def newCommit1 : CommitRecord :=
  { oid := "a1", statuses := [newCheck1], messageHeadline := "m" }

/-- Witness for C3 on the scenario of the spec (same name, status flipped):
zero notifications bear the name "CI / build". -/
theorem seen_name_never_notified_witness :
    (commitMessages [oldCommit1] newCommit1).countP
      (fun e => e.name == newCheck1.name) = 0 :=
  seen_name_never_notified [oldCommit1] newCommit1 oldCommit1 newCheck1
    (by decide) (by decide) (by decide)

/-! ### C4 -/

theorem leadsWith_iff : ∀ (n h : List Char),
    leadsWith n h = true ↔ ∃ q, h = n ++ q
  | [], h => by simp [leadsWith]
  | _ :: _, [] => by simp [leadsWith]
  | c :: cs, d :: ds => by
      simp only [leadsWith, Bool.and_eq_true, beq_iff_eq,
        leadsWith_iff cs ds, List.cons_append]
      constructor
      · rintro ⟨rfl, q, rfl⟩
        exact ⟨q, rfl⟩
      · rintro ⟨q, hq⟩
        injection hq with h1 h2
        exact ⟨h1.symm, q, h2⟩

theorem hasSub_iff : ∀ (n h : List Char),
    hasSub n h = true ↔ ∃ p q, h = p ++ n ++ q
  | n, [] => by
      simp only [hasSub, List.isEmpty_eq_true]
      constructor
      · rintro rfl
        exact ⟨[], [], rfl⟩
      · rintro ⟨p, q, hpq⟩
        exact (List.append_eq_nil.mp (List.append_eq_nil.mp hpq.symm).1).2
  | n, c :: cs => by
      simp only [hasSub, Bool.or_eq_true, leadsWith_iff, hasSub_iff n cs]
      constructor
      · rintro (⟨q, hq⟩ | ⟨p, q, hq⟩)
        · exact ⟨[], q, by simpa using hq⟩
        · exact ⟨c :: p, q, by simp [hq]⟩
      · rintro ⟨p, q, hq⟩
        cases p with
        | nil =>
            left
            exact ⟨q, by simpa using hq⟩
        | cons x xs =>
            right
            rw [List.cons_append, List.cons_append] at hq
            injection hq with h1 h2
            exact ⟨xs, q, h2⟩

/-- C4 counterexample: the claim states that under the failure predicate
the token "FAILURE" does not match; but `"FAILURE".lower()` is
`"failure"`, which contains `"fail"`, so the predicate accepts it. -/
theorem failing_matches_FAILURE : isFailing "FAILURE" = true := by decide

/-- C4 (amended): the failure-detection predicate holds exactly of
status tokens that case-insensitively contain "error" or "fail" as a
substring; in particular "action_required" does not match, while
"FAILURE", "Error" and "Failed" all do. -/
theorem failure_predicate_characterization :
    (∀ s : String, isFailing s = true ↔
      ((∃ p q, lowerData s = p ++ "error".data ++ q) ∨
       (∃ p q, lowerData s = p ++ "fail".data ++ q))) ∧
    isFailing "FAILURE" = true ∧
    isFailing "action_required" = false ∧
    isFailing "Error" = true ∧
    isFailing "Failed" = true := by
  refine ⟨fun s => ?_, by decide, by decide, by decide, by decide⟩
  unfold isFailing
  rw [Bool.or_eq_true, hasSub_iff, hasSub_iff]

/-! ### C6 -/

/-- C6: within one commit, notifications come out in the reverse of the
order of the checks in the status sequence: for positions `i < j` in the
"to notify" list, the notification for position `j` sits at an earlier
place of the emitted list than the one for position `i`, and each is the
image of its check. -/
theorem within_commit_reverse_order (old : List CommitRecord)
    (commit : CommitRecord) (i j : Nat) (hij : i < j)
    (hj : j < (notifyList old commit).length) :
    (notifyList old commit).length - 1 - j <
      (notifyList old commit).length - 1 - i ∧
    (commitMessages old commit)[(notifyList old commit).length - 1 - j]? =
      ((notifyList old commit)[j]?).map (mkNotified commit) ∧
    (commitMessages old commit)[(notifyList old commit).length - 1 - i]? =
      ((notifyList old commit)[i]?).map (mkNotified commit) := by
  have hi : i < (notifyList old commit).length := Nat.lt_trans hij hj
  refine ⟨by omega, ?_, ?_⟩
  · rw [commitMessages_eq, List.getElem?_map,
      List.getElem?_reverse (by omega)]
    have hidx : (notifyList old commit).length - 1 -
        ((notifyList old commit).length - 1 - j) = j := by omega
    rw [hidx]
  · rw [commitMessages_eq, List.getElem?_map,
      List.getElem?_reverse (by omega)]
    have hidx : (notifyList old commit).length - 1 -
        ((notifyList old commit).length - 1 - i) = i := by omega
    rw [hidx]

/-- A commit with two failing checks, to exercise the ordering. -/
def twoFailCommit : CommitRecord :=
  { oid := "b1"
    statuses := [{ name := "A", status := "FAILURE", url := "u1" },
                 { name := "B", status := "error", url := "u2" }]
    messageHeadline := "hh" }

/-- Witness for C6 at a concrete commit with two failing checks. -/
theorem within_commit_reverse_order_witness :
    (notifyList [] twoFailCommit).length - 1 - 1 <
      (notifyList [] twoFailCommit).length - 1 - 0 ∧
    (commitMessages [] twoFailCommit)[(notifyList [] twoFailCommit).length - 1 - 1]? =
      ((notifyList [] twoFailCommit)[1]?).map (mkNotified twoFailCommit) ∧
    (commitMessages [] twoFailCommit)[(notifyList [] twoFailCommit).length - 1 - 0]? =
      ((notifyList [] twoFailCommit)[0]?).map (mkNotified twoFailCommit) :=
  within_commit_reverse_order [] twoFailCommit 0 1 (by decide) (by decide)

/-! ### C7 -/

theorem check_foldl (nodes : List RawStatus) (acc : List CheckStatus) :
    nodes.foldl
      (fun acc status =>
        match status with
        | .statusContext context state targetUrl =>
            acc ++ [{ name := context, status := state, url := targetUrl }]
        | .checkRun conclusion name detailsUrl workflow =>
            acc ++ [{ name := workflow ++ " / " ++ name, status := conclusion,
                      url := detailsUrl }])
      acc
    = acc ++ nodes.map (fun status =>
        match status with
        | .statusContext context state targetUrl =>
            { name := context, status := state, url := targetUrl }
        | .checkRun conclusion name detailsUrl workflow =>
            { name := workflow ++ " / " ++ name, status := conclusion,
              url := detailsUrl }) := by
  induction nodes generalizing acc with
  | nil => simp
  | cons x xs ih => cases x <;> simp [ih]

/-- C7: the status normalizer keeps the oid and the message headline,
and produces a status list of the same length and order as the raw node
list, where a node carrying `context` maps to
`{name: context, status: state, url: targetUrl}` and a check-run node
maps to `{name: "{workflow} / {name}", status: conclusion,
url: detailsUrl}`. -/
theorem check_commit_preserves_shape (commit : RawCommit) :
    (check_commit commit).oid = commit.oid ∧
    (check_commit commit).messageHeadline = commit.messageHeadline ∧
    (check_commit commit).statuses.length = commit.nodes.length ∧
    ∀ i : Nat, (check_commit commit).statuses[i]? =
      (commit.nodes[i]?).map (fun status =>
        match status with
        | .statusContext context state targetUrl =>
            { name := context, status := state, url := targetUrl }
        | .checkRun conclusion name detailsUrl workflow =>
            { name := workflow ++ " / " ++ name, status := conclusion,
              url := detailsUrl }) := by
  have hst : (check_commit commit).statuses =
      commit.nodes.map (fun status =>
        match status with
        | .statusContext context state targetUrl =>
            ({ name := context, status := state, url := targetUrl } :
              CheckStatus)
        | .checkRun conclusion name detailsUrl workflow =>
            { name := workflow ++ " / " ++ name, status := conclusion,
              url := detailsUrl }) := by
    unfold check_commit
    rw [check_foldl]
    simp
  refine ⟨rfl, rfl, ?_, ?_⟩
  · rw [hst, List.length_map]
  · intro i
    rw [hst, List.getElem?_map]

/-! ### C5 -/

/-- A raw commit with no status nodes, used to build concrete pages. -/
def rawDemo : RawCommit := { oid := "o", messageHeadline := "m", nodes := [] }

/-- A single upstream page holding 15 commits and a further cursor. -/
def bigPage : Page := { nodes := List.replicate 15 rawDemo, edges := ["c0"] }

/-- C5 counterexample: one upstream page of 15 commits — more than the
remaining budget of 10 — yields a snapshot of 15 CommitRecord.  The
loop appends whole pages before re-checking the bound, so the result is
not bounded by `MAX_COMMITS_TO_CHECK`. -/
theorem fetch_exceeds_declared_max :
    ((run_fetch [bigPage]).1).length = 15 ∧
    ¬ ((run_fetch [bigPage]).1).length ≤ MAX_COMMITS_TO_CHECK := by
  decide

theorem fetch_all_fst_length :
    ∀ (rest : List Page) (i : Nat) (page : Page) (acc : List CommitRecord),
      page.nodes.length ≤ 15 → (∀ p ∈ rest, p.nodes.length ≤ 15) →
      i ≤ 9 →
      ((fetch_all i page rest acc).1).length ≤ acc.length + (9 - i) + 15 := by
  intro rest
  induction rest with
  | nil =>
      intro i page acc hp _ hi
      unfold fetch_all
      simp only [append_page_eq]
      split_ifs <;> simp <;> omega
  | cons p ps ih =>
      intro i page acc hp hr hi
      have hmax : MAX_COMMITS_TO_CHECK = 10 := rfl
      unfold fetch_all
      simp only [append_page_eq, hmax]
      split_ifs with h1 h2
      · simp
        omega
      · have := ih (i + page.nodes.length) p
          (acc ++ page.nodes.map check_commit)
          (hr p (by simp)) (fun q hq => hr q (by simp [hq])) (by omega)
        simp only [append_page_eq] at this
        simp at this ⊢
        omega
      · simp
        omega

/-- C5 (amended): the fetcher does not truncate to the maximum commit
count: it only stops requesting further pages once the accumulated
count reaches 10, appending every commit of each fetched page, so the
result can exceed 10; with pages of at most 15 commits the length is
bounded by 24 (at most 9 commits accumulated before the last fetch,
plus one whole page of 15). -/
theorem fetch_length_at_most_24 (pages : List Page)
    (h : ∀ p ∈ pages, p.nodes.length ≤ 15) :
    ((run_fetch pages).1).length ≤ 24 := by
  cases pages with
  | nil => decide
  | cons p ps =>
      have := fetch_all_fst_length ps 0 p [] (h p (by simp))
        (fun q hq => h q (by simp [hq])) (by omega)
      simpa [run_fetch] using this

/-- Witness for the amended C5 at the 15-commit page. -/
theorem fetch_length_at_most_24_witness :
    ((run_fetch [bigPage]).1).length ≤ 24 :=
  fetch_length_at_most_24 [bigPage] (by decide)

/-! ### C8 -/

theorem fetch_all_count_pos :
    ∀ (rest : List Page) (i : Nat) (page : Page) (acc : List CommitRecord),
      1 ≤ (fetch_all i page rest acc).2 := by
  intro rest i page acc
  unfold fetch_all
  cases rest <;> split_ifs <;> simp

/-- C8: the pagination loop terminates (`fetch_all` is a total function
of the upstream page sequence), and from any loop state it performs a
further page fetch exactly when the page just processed has nonzero
edges and the accumulated commit count is still below
`MAX_COMMITS_TO_CHECK`; the fetched-page count exceeds 1 precisely in
that case. -/
theorem pagination_stops_iff (i : Nat) (page : Page) (rest : List Page)
    (acc : List CommitRecord) :
    2 ≤ (fetch_all i page rest acc).2 ↔
      (page.edges.length ≠ 0 ∧
        i + page.nodes.length < MAX_COMMITS_TO_CHECK) := by
  unfold fetch_all
  cases rest with
  | nil =>
      split_ifs with h1 h2
      · simp [h1]
      · simp [h1, h2]
      · simp [h1, h2]
  | cons p ps =>
      split_ifs with h1 h2
      · simp [h1]
      · have := fetch_all_count_pos ps (i + page.nodes.length) p
          (append_page acc page)
        simp [h1, h2]
        omega
      · simp [h1, h2]

/-! ### C9 -/

/-- C9: when the snapshots differ structurally but every new commit has
a matching old commit whose check names cover all check names of the
new commit (for instance only order or status tokens changed), the run
emits zero notifications yet still overwrites the snapshot store with
the new snapshot. -/
theorem covered_names_rewrite_without_notify (old new : List CommitRecord)
    (hne : old ≠ new)
    (h : ∀ c ∈ new, ∃ oc, find_old old c.oid = some oc ∧
          ∀ s ∈ c.statuses, s.name ∈ oc.statuses.map (fun x => x.name)) :
    run_update old new = ([], some new) := by
  have hmd : message_diff old new = [] := by
    rw [message_diff_eq_flatten, List.flatten_eq_nil_iff]
    intro l hl
    rw [List.mem_map] at hl
    obtain ⟨c, hc, rfl⟩ := hl
    obtain ⟨oc, hoc, hsub⟩ := h c hc
    rw [commitMessages_eq]
    have hnil : to_message_of old c = [] := by
      unfold to_message_of
      rw [hoc]
      simp only [List.filter_eq_nil_iff]
      intro a ha
      simp [List.contains, List.elem_eq_mem, hsub a ha]
    unfold notifyList
    rw [hnil]
    simp
  unfold run_update
  rw [if_pos hne, hmd]

/-- Witness for C9: same single commit, check name unchanged, status
flipped from FAILURE to SUCCESS — snapshots differ, no notification,
store rewritten. -/
theorem covered_names_rewrite_without_notify_witness :
    run_update [oldCommit1] [newCommit1] = ([], some [newCommit1]) :=
  covered_names_rewrite_without_notify [oldCommit1] [newCommit1]
    (by decide)
    (fun c hc => by
      simp only [List.mem_singleton] at hc
      subst hc
      exact ⟨oldCommit1, by decide, by decide⟩)

/-! ### C10 -/

/-- C10: checks are not deduplicated by name: whenever a name is absent
from the matching old commit (vacuously so when the commit is new), the
number of notifications bearing that name equals the number of status
entries bearing that name whose token satisfies the failure predicate —
one notification per entry, not per distinct name. -/
theorem duplicate_names_one_event_per_entry (old : List CommitRecord)
    (commit : CommitRecord) (n : String)
    (h : ∀ oc, find_old old commit.oid = some oc →
          n ∉ oc.statuses.map (fun x => x.name)) :
    (commitMessages old commit).countP (fun e => e.name == n) =
      commit.statuses.countP (fun s => s.name == n && isFailing s.status) := by
  rw [commitMessages_eq, List.countP_map, List.countP_reverse]
  unfold notifyList to_message_of
  cases hfind : find_old old commit.oid with
  | none =>
      rw [List.countP_filter]
      apply List.countP_congr
      intro x _
      simp [Function.comp, mkNotified]
  | some oc =>
      have hn := h oc hfind
      rw [List.countP_filter, List.countP_filter]
      apply List.countP_congr
      intro x _
      by_cases hxn : x.name = n
      · subst hxn
        simp [Function.comp, mkNotified, List.contains, List.elem_eq_mem, hn]
      · simp [Function.comp, mkNotified, hxn]

/-- A commit with two failing entries sharing one name. -/
def dupCommit : CommitRecord :=
  { oid := "c1"
    statuses := [{ name := "N", status := "FAILURE", url := "u1" },
                 { name := "N", status := "failed", url := "u2" }]
    messageHeadline := "dup" }

/-- Witness for C10: with two failing entries named "N" in a new commit,
two notifications named "N" are emitted. -/
theorem duplicate_names_one_event_per_entry_witness :
    (commitMessages [] dupCommit).countP (fun e => e.name == "N") =
      dupCommit.statuses.countP
        (fun s => s.name == "N" && isFailing s.status) ∧
    (commitMessages [] dupCommit).countP (fun e => e.name == "N") = 2 :=
  ⟨duplicate_names_one_event_per_entry [] dupCommit "N"
      (fun oc hoc => by simp [find_old] at hoc),
    by decide⟩
